import Mathlib

/-!
Shallow embedding of the backtest execution and performance-analytics engine of
the quant-pack repository (files `src/services/integrated_backtest_executor.py`
and `src/services/backtest_service.py`), together with theorems settling the
frozen claims about it.

Python floats are modelled as exact rationals (`ℚ`); the real-power and
square-root based metrics (annualized return, volatility, Sharpe) live in `ℝ`.
Python dicts (which iterate in insertion order) are modelled as association
lists with first-match lookup and update-in-place-or-append assignment.
Mutation of shared `Trade` objects is modelled by explicit state passing: the
function that mutates the trade list returns the updated list.
-/

/-- Association-list model of Python `dict.__getitem__` / `in`:
first-match lookup. -/
def lookupK {α : Type} : List (String × α) → String → Option α
  | [], _ => none
  | (k, v) :: rest, key => if k = key then some v else lookupK rest key

/-- Association-list model of Python `dict.get(key, d)`. -/
def getKD {α : Type} (m : List (String × α)) (key : String) (d : α) : α :=
  (lookupK m key).getD d

/-- Association-list model of Python `dict.__setitem__`: update the existing
entry in place, append a new entry otherwise (insertion order preserved). -/
def setK {α : Type} : List (String × α) → String → α → List (String × α)
  | [], key, v => [(key, v)]
  | (k, w) :: rest, key, v =>
      if k = key then (k, v) :: rest else (k, w) :: setK rest key v

/-- Modelled from the spec: trade side, `app.models.backtest.TradeType`
(the `app.models` package is not among the provided sources). -/
inductive TradeType
  | BUY
  | SELL
  deriving DecidableEq, Repr, Inhabited

/-- Modelled from the spec: run lifecycle status,
`app.models.backtest.BacktestStatus` (not among the provided sources). -/
inductive BacktestStatus
  | PENDING
  | RUNNING
  | COMPLETED
  | FAILED
  deriving DecidableEq, Repr

/-- Modelled from the spec: a `app.models.backtest.Trade` record (not among the
provided sources), restricted to the fields the executor logic reads and
writes: symbol, side, integer quantity, price, commission. -/
structure Trade where
  symbol : String
  trade_type : TradeType
  quantity : ℤ
  price : ℚ
  commission : ℚ
  deriving DecidableEq, Repr, Inhabited

/-- One OHLCV bar, restricted to the only field the simulation reads
(`day_data[symbol].get("close", 0)`). -/
structure Bar where
  close : ℚ
  deriving DecidableEq, Repr, Inhabited

/-- A strategy signal as consumed by
`IntegratedBacktestExecutor._execute_trades`:
`signal.get("action")` and `signal.get("quantity", 0)`. -/
structure Signal where
  action : String
  quantity : ℤ
  deriving DecidableEq, Repr

/-- State threaded through `IntegratedBacktestExecutor._execute_trades`:
the trades produced so far in the step and the (mutated-in-place) positions
dict mapping symbol to held quantity. -/
structure ExecState where
  trades : List Trade
  positions : List (String × ℤ)
  deriving DecidableEq, Repr

/-- One iteration of the `for symbol, signal in signals.items()` loop of
`IntegratedBacktestExecutor._execute_trades` (lines 252-305).  Note that
`currentCapital` is a parameter that the loop never updates: every BUY
admission check in the same step compares against the same value. -/
def tradeStep (dayData : List (String × Bar)) (currentCapital : ℚ)
    (st : ExecState) (p : String × Signal) : ExecState :=
  match lookupK dayData p.1 with
  | none => st
  | some bar =>
    let price := bar.close
    if price ≤ 0 then st
    else
      let quantity := p.2.quantity
      if p.2.action = "BUY" ∧ quantity > 0 then
        let cost := price * (quantity : ℚ)
        let commission := cost * (1 / 1000)
        let totalCost := cost + commission
        if totalCost ≤ currentCapital then
          { trades := st.trades ++ [⟨p.1, TradeType.BUY, quantity, price, commission⟩],
            positions := setK st.positions p.1 (getKD st.positions p.1 0 + quantity) }
        else st
      else if p.2.action = "SELL" ∧ quantity > 0 then
        let currentPosition := getKD st.positions p.1 0
        let sellQuantity := min quantity currentPosition
        if sellQuantity > 0 then
          let revenue := price * (sellQuantity : ℚ)
          let commission := revenue * (1 / 1000)
          { trades := st.trades ++ [⟨p.1, TradeType.SELL, sellQuantity, price, commission⟩],
            positions := setK st.positions p.1 (currentPosition - sellQuantity) }
        else st
      else st

/-- Model of `IntegratedBacktestExecutor._execute_trades` (lines 241-307): apply one
step of signals, in the order the strategy returned them, against the day
bars, the current positions and the capital at the start of the step. -/
def executeTrades (signals : List (String × Signal)) (dayData : List (String × Bar))
    (positions : List (String × ℤ)) (currentCapital : ℚ) : ExecState :=
  signals.foldl (tradeStep dayData currentCapital) ⟨[], positions⟩

/-- The capital update loop of `IntegratedBacktestExecutor._execute_simulation`
(lines 218-226), run after `_execute_trades` returned the day trades. -/
def capitalAfterTrades (capital : ℚ) (dayTrades : List Trade) : ℚ :=
  dayTrades.foldl
    (fun c t =>
      match t.trade_type with
      | TradeType.BUY => c - (t.price * (t.quantity : ℚ) + t.commission)
      | TradeType.SELL => c + (t.price * (t.quantity : ℚ) - t.commission))
    capital

/-- Model of `IntegratedBacktestExecutor._calculate_portfolio_value` (lines 309-321). -/
def calculatePortfolioValue (positions : List (String × ℤ))
    (dayData : List (String × Bar)) (cash : ℚ) : ℚ :=
  positions.foldl
    (fun (total : ℚ) (p : String × ℤ) =>
      match lookupK dayData p.1 with
      | some bar => if p.2 > 0 then total + bar.close * (p.2 : ℚ) else total
      | none => total)
    cash

/-- The `day_data` construction of `_execute_simulation` (lines 195-198):
for each requested symbol, in order, take bar `i` when it exists. -/
def buildDayData (marketData : List (String × List Bar)) (symbols : List String)
    (i : ℕ) : List (String × Bar) :=
  symbols.foldl
    (fun dd s =>
      match lookupK marketData s with
      | some bars => if i < bars.length then setK dd s (bars.getD i default) else dd
      | none => dd)
    []

/-- Model of `min(len(data) for data in market_data.values() if data)` (line 188).
The `if data` filter drops empty bar lists; Python `min` over an empty
generator raises `ValueError`, modelled as `none`. -/
def minLengthOf (marketData : List (String × List Bar)) : Option ℕ :=
  match (marketData.filter (fun p => !p.2.isEmpty)).map (fun p => p.2.length) with
  | [] => none
  | l :: ls => some (ls.foldl min l)

/-- State threaded through the day loop of `_execute_simulation`. -/
structure SimDayState where
  trades : List Trade
  portfolioValues : List ℚ
  capital : ℚ
  positions : List (String × ℤ)
  deriving DecidableEq, Repr

/-- One iteration of the `for i in range(min_length)` loop of
`_execute_simulation` (lines 194-237).  A strategy that raises on a step is
modelled by `none`: the previous portfolio value is repeated and no trade is
made on that step. -/
def simDay (strategy : ℕ → List (String × Bar) → Option (List (String × Signal)))
    (marketData : List (String × List Bar)) (symbols : List String)
    (st : SimDayState) (i : ℕ) : SimDayState :=
  let dayData := buildDayData marketData symbols i
  if dayData.isEmpty then st
  else
    match strategy i dayData with
    | none =>
        { st with portfolioValues := st.portfolioValues ++ [st.portfolioValues.getLastD 0] }
    | some signals =>
        let r := executeTrades signals dayData st.positions st.capital
        let newCapital := capitalAfterTrades st.capital r.trades
        let value := calculatePortfolioValue r.positions dayData newCapital
        { trades := st.trades ++ r.trades,
          portfolioValues := st.portfolioValues ++ [value],
          capital := newCapital,
          positions := r.positions }

/-- Model of `IntegratedBacktestExecutor._execute_simulation` (lines 173-239).
Returns `none` when the `min(...)` on line 188 raises `ValueError`
(every bar list empty, or no market data at all). -/
def executeSimulation
    (strategy : ℕ → List (String × Bar) → Option (List (String × Signal)))
    (marketData : List (String × List Bar)) (initialCapital : ℚ)
    (symbols : List String) : Option (List Trade × List ℚ) :=
  match minLengthOf marketData with
  | none => none
  | some m =>
      if m = 0 then some ([], [initialCapital])
      else
        let final := (List.range m).foldl (simDay strategy marketData symbols)
          ⟨[], [initialCapital], initialCapital, []⟩
        some (final.trades, final.portfolioValues)

/-
The trading simulator of `src/services/backtest_service.py` (class
`TradingSimulator`).  The per-signal price walk draws one sample from
`np.random.normal(0, 0.02)` (line 128); the stream of draws is made an
explicit input `noise : ℕ → ℚ`, indexed by the position of the signal in the
list.
-/

/-- Modelled from the spec: `app.models.backtest.BacktestConfig` (not among
the provided sources), restricted to the fields `TradingSimulator` reads. -/
structure BacktestConfig where
  symbols : List String
  initial_cash : ℚ
  commission_rate : ℚ
  deriving DecidableEq, Repr

/-- A raw signal dict consumed by `TradingSimulator.simulate_trades`:
`signal.get("symbol", ...)`, `signal.get("action", "BUY")`,
`signal.get("quantity", 10)` each default when the key is absent. -/
structure SimSignal where
  symbol : Option String
  action : Option String
  quantity : Option ℤ
  deriving DecidableEq, Repr

/-- The symbol a signal is applied to after defaulting (line 121-123):
`signal.get("symbol", self.config.symbols[0] if self.config.symbols else "AAPL")`. -/
def tsSymbol (cfg : BacktestConfig) (s : SimSignal) : String :=
  s.symbol.getD (cfg.symbols.headD "AAPL")

/-- State threaded through the signal loop of
`TradingSimulator.simulate_trades`. -/
structure TSState where
  cash : ℚ
  positions : List (String × ℚ)
  priceData : List (String × ℚ)
  portfolioValues : List ℚ
  trades : List Trade
  deriving DecidableEq, Repr

/-- One iteration of the signal loop of `TradingSimulator.simulate_trades`
(lines 119-187).  A symbol absent from `price_data` raises `KeyError`, which
the per-signal `except` swallows with `continue`: the state is unchanged and
no portfolio value is appended. -/
def tsStep (cfg : BacktestConfig) (noise : ℕ → ℚ) (st : TSState)
    (p : ℕ × SimSignal) : TSState :=
  let symbol := tsSymbol cfg p.2
  let action := p.2.action.getD "BUY"
  let quantity := p.2.quantity.getD 10
  match lookupK st.priceData symbol with
  | none => st
  | some oldPrice =>
    let currentPrice := oldPrice * (1 + noise p.1)
    let priceData := setK st.priceData symbol currentPrice
    let next :=
      if action = "BUY" then
        let cost := (quantity : ℚ) * currentPrice * (1 + cfg.commission_rate)
        if st.cash ≥ cost then
          (st.cash - cost,
           setK st.positions symbol (getKD st.positions symbol 0 + (quantity : ℚ)),
           st.trades ++ [⟨symbol, TradeType.BUY, quantity, currentPrice,
                          (quantity : ℚ) * currentPrice * cfg.commission_rate⟩])
        else (st.cash, st.positions, st.trades)
      else if action = "SELL" then
        if getKD st.positions symbol 0 ≥ (quantity : ℚ) then
          (st.cash + (quantity : ℚ) * currentPrice * (1 - cfg.commission_rate),
           setK st.positions symbol (getKD st.positions symbol 0 - (quantity : ℚ)),
           st.trades ++ [⟨symbol, TradeType.SELL, quantity, currentPrice,
                          (quantity : ℚ) * currentPrice * cfg.commission_rate⟩])
        else (st.cash, st.positions, st.trades)
      else (st.cash, st.positions, st.trades)
    let value := next.2.1.foldl (fun v q => v + q.2 * getKD priceData q.1 0) next.1
    { cash := next.1, positions := next.2.1, priceData := priceData,
      portfolioValues := st.portfolioValues ++ [value], trades := next.2.2 }

/-- Model of `TradingSimulator.simulate_trades` (lines 107-189): returns the portfolio
value series (seeded with the initial cash) and the trade list. -/
def simulateTrades (cfg : BacktestConfig) (signals : List SimSignal)
    (noise : ℕ → ℚ) : List ℚ × List Trade :=
  let init : TSState :=
    ⟨cfg.initial_cash, [], cfg.symbols.map (fun s => (s, 100)),
     [cfg.initial_cash], []⟩
  let fin := signals.enum.foldl (tsStep cfg noise) init
  (fin.portfolioValues, fin.trades)

/-
Performance metrics.  The integrated executor computes them in
`IntegratedBacktestExecutor._calculate_performance_metrics` (lines 323-380);
`PerformanceCalculator.calculate_metrics` in `backtest_service.py` is the
standalone variant (lines 36-97).
-/

/-- The daily-return loop of `_calculate_performance_metrics` (lines 345-351):
the return at index `i` is computed only when the previous value is
strictly positive. -/
def dailyReturnsIBE : List ℚ → List ℚ
  | [] => []
  | [_] => []
  | a :: b :: rest =>
      (if a > 0 then [(b - a) / a] else []) ++ dailyReturnsIBE (b :: rest)

/-- The daily-return loop of `PerformanceCalculator.calculate_metrics`
(lines 51-54): no guard on the divisor, so a zero previous value raises
`ZeroDivisionError`, modelled as `none`. -/
def pcDailyReturns : List ℚ → Option (List ℚ)
  | [] => some []
  | [_] => some []
  | a :: b :: rest =>
      if a = 0 then none
      else
        match pcDailyReturns (b :: rest) with
        | none => none
        | some rs => some ((b - a) / a :: rs)

/-- The running-peak loop shared by `_calculate_max_drawdown` in both files. -/
def maxDrawdownGo : ℚ → ℚ → List ℚ → ℚ
  | _, maxDd, [] => maxDd
  | peak, maxDd, v :: rest =>
      let peak' := if v > peak then v else peak
      let dd := if peak' > 0 then (peak' - v) / peak' else 0
      maxDrawdownGo peak' (max maxDd dd) rest

/-- Model of `_calculate_max_drawdown` (executor lines 382-396, calculator lines
80-97): peak starts at the first value and the loop revisits every value. -/
def calculateMaxDrawdown (values : List ℚ) : ℚ :=
  match values with
  | [] => 0
  | v :: rest => maxDrawdownGo v 0 (v :: rest)

/-- Model of `(daily_values[-1] - initial_value) / initial_value`
(`total_return`, executor line 342, calculator line 57). -/
def totalReturnQ (values : List ℚ) (initialValue : ℚ) : ℚ :=
  (values.getLastD 0 - initialValue) / initialValue

/-- Model of `np.std`: population standard deviation, as a real. -/
noncomputable def npStd (xs : List ℚ) : ℝ :=
  let n : ℝ := xs.length
  let mean : ℝ := (xs.map (fun x => (x : ℝ))).sum / n
  Real.sqrt ((xs.map (fun x => ((x : ℝ) - mean) ^ 2)).sum / n)

/-- Model of `annualized_return = (1 + total_return) ** (365 / days) - 1 if days > 0
else 0.0` with `days = len(portfolio_values)` (executor lines 353-355,
calculator lines 59-61). -/
noncomputable def annualizedReturnOf (values : List ℚ) (initialValue : ℚ) : ℝ :=
  let days := values.length
  if days > 0 then
    (1 + (totalReturnQ values initialValue : ℝ)) ^ ((365 : ℝ) / (days : ℝ)) - 1
  else 0

/-- Model of `volatility = np.std(daily_returns) * np.sqrt(252) if daily_returns else
0.0` over the guarded daily returns (executor line 358). -/
noncomputable def volatilityIBE (values : List ℚ) : ℝ :=
  if dailyReturnsIBE values = [] then 0
  else npStd (dailyReturnsIBE values) * Real.sqrt 252

/-- Model of the line `sharpe_ratio = annualized_return / volatility if volatility > 0 else
0.0` (executor line 361). -/
noncomputable def sharpeIBE (values : List ℚ) (initialValue : ℚ) : ℝ :=
  if volatilityIBE values > 0 then
    annualizedReturnOf values initialValue / volatilityIBE values
  else 0

/-
FIFO win/loss attribution: `_calculate_trade_metrics` (executor lines
398-457).  The Python mutates the `quantity` of a partially consumed BUY
`Trade` object in place (line 451); the model keeps the current quantity of
the trade at index `j` in a list `qtys` and returns the trade list rebuilt
from the final quantities, which is the list the caller observes afterwards.
-/

/-- The `while remaining_quantity > 0 and positions[symbol]` loop (lines
423-452).  Arguments: FIFO lot queue (indices of BUY trades), remaining sell
quantity, current per-trade quantities, winning count, matched-pair count.
Returns the remaining lot queue and the updated quantities and counters. -/
def consumeLots (tr : List Trade) (sellPrice : ℚ) :
    List ℕ → ℤ → List ℤ → ℕ → ℕ → List ℕ × List ℤ × ℕ × ℕ
  | [], _, qtys, w, t => ([], qtys, w, t)
  | j :: rest, remaining, qtys, w, t =>
      if remaining ≤ 0 then (j :: rest, qtys, w, t)
      else
        let q := qtys.getD j 0
        let buyPrice := (tr.getD j default).price
        if q ≤ remaining then
          let profit := (sellPrice - buyPrice) * (q : ℚ)
          consumeLots tr sellPrice rest (remaining - q) qtys
            (w + if profit > 0 then 1 else 0) (t + 1)
        else
          let profit := (sellPrice - buyPrice) * (remaining : ℚ)
          (j :: rest, qtys.set j (q - remaining),
           w + (if profit > 0 then 1 else 0), t + 1)

/-- State of the `for trade in trades` loop of `_calculate_trade_metrics`. -/
structure TMState where
  qtys : List ℤ
  lots : List (String × List ℕ)
  winning : ℕ
  total : ℕ
  deriving DecidableEq, Repr

/-- The `for trade in trades` loop (lines 412-452), processing the trades
paired with their indices. -/
def tradeMetricsGo (tr : List Trade) : List (ℕ × Trade) → TMState → TMState
  | [], st => st
  | (i, trade) :: rest, st =>
      match trade.trade_type with
      | TradeType.BUY =>
          let newLots := setK st.lots trade.symbol (getKD st.lots trade.symbol [] ++ [i])
          tradeMetricsGo tr rest { st with lots := newLots }
      | TradeType.SELL =>
          match lookupK st.lots trade.symbol with
          | none => tradeMetricsGo tr rest st
          | some lotIdxs =>
              let r := consumeLots tr trade.price lotIdxs trade.quantity
                st.qtys st.winning st.total
              tradeMetricsGo tr rest
                { qtys := r.2.1, lots := setK st.lots trade.symbol r.1,
                  winning := r.2.2.1, total := r.2.2.2 }

/-- Model of `IntegratedBacktestExecutor._calculate_trade_metrics` (lines 398-457).
Returns `(win_rate, winning_trades, losing_trades, trades-after-the-call)`:
the last component is the input list with the in-place quantity mutations of
partially consumed BUY lots applied. -/
def calculateTradeMetrics (trades : List Trade) : ℚ × ℕ × ℕ × List Trade :=
  if trades.length < 2 then (0, 0, 0, trades)
  else
    let st := tradeMetricsGo trades trades.enum
      { qtys := trades.map (fun t => t.quantity), lots := [], winning := 0, total := 0 }
    let winRate : ℚ := if st.total > 0 then (st.winning : ℚ) / (st.total : ℚ) else 0
    let mutated := (trades.zip st.qtys).map
      (fun p => { p.1 with quantity := p.2 })
    (winRate, st.winning, st.total - st.winning, mutated)

/-- Modelled from the spec: `app.models.backtest.PerformanceMetrics` (not
among the provided sources).  The Sharpe-ratio field is named `sharpe` here. -/
structure PerformanceMetrics where
  total_return : ℚ
  annualized_return : ℝ
  volatility : ℝ
  sharpe : ℝ
  max_drawdown : ℚ
  total_trades : ℕ
  winning_trades : ℕ
  losing_trades : ℕ
  win_rate : ℚ

/-- Model of `IntegratedBacktestExecutor._calculate_performance_metrics` (lines
323-380).  The second component of the result is the trade list as left
behind by `_calculate_trade_metrics` (the in-place mutation of the input). -/
noncomputable def calculatePerformanceMetrics (portfolioValues : List ℚ)
    (initialCapital : ℚ) (trades : List Trade) : PerformanceMetrics × List Trade :=
  if portfolioValues.length < 2 then
    ({ total_return := 0, annualized_return := 0, volatility := 0, sharpe := 0,
       max_drawdown := 0, total_trades := 0, winning_trades := 0,
       losing_trades := 0, win_rate := 0 }, trades)
  else
    let tm := calculateTradeMetrics trades
    ({ total_return := totalReturnQ portfolioValues initialCapital,
       annualized_return := annualizedReturnOf portfolioValues initialCapital,
       volatility := volatilityIBE portfolioValues,
       sharpe := sharpeIBE portfolioValues initialCapital,
       max_drawdown := calculateMaxDrawdown portfolioValues,
       total_trades := trades.length,
       winning_trades := tm.2.1,
       losing_trades := tm.2.2.1,
       win_rate := tm.1 }, tm.2.2.2)

/-- The five-float dict returned by
`PerformanceCalculator.calculate_metrics`. -/
structure PCMetricsDict where
  total_return : ℚ
  annualized_return : ℝ
  volatility : ℝ
  sharpe : ℝ
  max_drawdown : ℚ

/-- Model of `PerformanceCalculator.calculate_metrics` (`backtest_service.py` lines
36-78).  `none` models an uncaught `ZeroDivisionError`: the daily-return loop
has no guard on the divisor, and neither has the `total_return` division. -/
noncomputable def pcCalculateMetrics (dailyValues : List ℚ)
    (initialValue : ℚ) : Option PCMetricsDict :=
  if dailyValues.length < 2 then
    some { total_return := 0, annualized_return := 0, volatility := 0,
           sharpe := 0, max_drawdown := 0 }
  else
    match pcDailyReturns dailyValues with
    | none => none
    | some rs =>
        if initialValue = 0 then none
        else
          some { total_return := totalReturnQ dailyValues initialValue,
                 annualized_return := annualizedReturnOf dailyValues initialValue,
                 volatility := if rs = [] then 0 else npStd rs * Real.sqrt 252,
                 sharpe :=
                   (if (if rs = [] then (0 : ℝ) else npStd rs * Real.sqrt 252) > 0 then
                     annualizedReturnOf dailyValues initialValue /
                       (if rs = [] then (0 : ℝ) else npStd rs * Real.sqrt 252)
                   else 0),
                 max_drawdown := calculateMaxDrawdown dailyValues }

/-
Orchestrator failure paths.  `Backtest` and `BacktestExecution` are modelled
from the spec (the `app.models` package is not among the provided sources);
timestamps are abstract naturals, durations are abstract too — the claims
only concern which fields the failure handlers set.
-/

/-- Modelled from the spec: the `Backtest` run document, restricted to the
lifecycle fields the orchestrators write. -/
structure Backtest where
  status : BacktestStatus
  start_time : Option ℕ
  end_time : Option ℕ
  duration_seconds : Option ℕ
  error_message : Option String
  deriving DecidableEq, Repr

/-- Modelled from the spec: the `BacktestExecution` document, restricted to
the fields the failure paths write. -/
structure BacktestExecution where
  status : BacktestStatus
  start_time : Option ℕ
  end_time : Option ℕ
  error_message : Option String
  deriving DecidableEq, Repr

/-- The `except` branch of
`IntegratedBacktestExecutor.execute_integrated_backtest` acting on the run
document (lines 159-163): status, end time and error message are written;
`duration_seconds` is not touched. -/
def integratedFailureRun (b : Backtest) (err : String) (now : ℕ) : Backtest :=
  { b with status := BacktestStatus.FAILED, end_time := some now,
           error_message := some err }

/-- The `except` branch acting on the execution document (lines 165-169). -/
def integratedFailureExecution (e : BacktestExecution) (err : String)
    (now : ℕ) : BacktestExecution :=
  { e with status := BacktestStatus.FAILED, end_time := some now,
           error_message := some err }

/-- The `except` branch of `BacktestService.execute_backtest` acting on the
run document (lines 419-423): status, end time and duration are written;
`error_message` is not touched. -/
def serviceFailureRun (b : Backtest) (startTime now : ℕ) : Backtest :=
  { b with status := BacktestStatus.FAILED, end_time := some now,
           duration_seconds := some (now - startTime) }

/-- The failed `BacktestExecution` record built by the `except` branch of
`BacktestService.execute_backtest` (lines 426-435). -/
def serviceFailureExecution (startTime now : ℕ) (err : String) :
    BacktestExecution :=
  { status := BacktestStatus.FAILED, start_time := some startTime,
    end_time := some now, error_message := some err }

/-
Helper lemmas about the per-step trade loop of the integrated executor.
-/

/-- A `tradeStep` only ever appends to the trade accumulator: its result on
an arbitrary accumulator is the accumulator followed by whatever it produces
from an empty one, with the same position update. -/
theorem tradeStep_split (dayData : List (String × Bar)) (cap : ℚ)
    (st : ExecState) (p : String × Signal) :
    tradeStep dayData cap st p =
      ⟨st.trades ++ (tradeStep dayData cap ⟨[], st.positions⟩ p).trades,
       (tradeStep dayData cap ⟨[], st.positions⟩ p).positions⟩ := by
  unfold tradeStep
  cases hl : lookupK dayData p.1 with
  | none => simp
  | some bar =>
      simp only
      split_ifs <;> simp

/-- Folding `tradeStep` from an arbitrary accumulator appends to it. -/
theorem foldl_tradeStep_split (dayData : List (String × Bar)) (cap : ℚ) :
    ∀ (sigs : List (String × Signal)) (st : ExecState),
      sigs.foldl (tradeStep dayData cap) st =
        ⟨st.trades ++ (sigs.foldl (tradeStep dayData cap) ⟨[], st.positions⟩).trades,
         (sigs.foldl (tradeStep dayData cap) ⟨[], st.positions⟩).positions⟩ := by
  intro sigs
  induction sigs with
  | nil => intro st; simp
  | cons s rest ih =>
      intro st
      simp only [List.foldl_cons]
      rw [ih (tradeStep dayData cap st s), tradeStep_split dayData cap st s,
        ih (tradeStep dayData cap ⟨[], st.positions⟩ s)]
      simp

/-- Any trade admitted by a `tradeStep` that is a BUY was checked against the
fixed step capital: its cost plus commission is at most `cap`. -/
theorem tradeStep_buy_bound (dayData : List (String × Bar)) (cap : ℚ)
    (st : ExecState) (p : String × Signal)
    (h : ∀ t ∈ st.trades, t.trade_type = TradeType.BUY →
      t.price * (t.quantity : ℚ) + t.commission ≤ cap) :
    ∀ t ∈ (tradeStep dayData cap st p).trades, t.trade_type = TradeType.BUY →
      t.price * (t.quantity : ℚ) + t.commission ≤ cap := by
  intro t ht
  unfold tradeStep at ht
  cases hl : lookupK dayData p.1 with
  | none => rw [hl] at ht; exact h t ht
  | some bar =>
      rw [hl] at ht
      simp only at ht
      split_ifs at ht with h1 h2 h3 h4 h5
      · exact h t ht
      · rcases List.mem_append.mp ht with hin | hnew
        · exact h t hin
        · intro _
          simp only [List.mem_singleton] at hnew
          subst hnew
          simpa [mul_add] using h3
      · exact h t ht
      · rcases List.mem_append.mp ht with hin | hnew
        · exact h t hin
        · intro hbuy
          simp only [List.mem_singleton] at hnew
          subst hnew
          simp at hbuy
      · exact h t ht
      · exact h t ht

/-- C2 (corrected claim): within one simulated step, the signals are applied
in the order returned — processing a concatenation first processes the left
part and then the right part on the updated positions — but the capital used
by every BUY admission check is the capital at the start of the step: the
right part is still checked against the same `cap`, and every admitted BUY
individually satisfies `price × quantity + commission ≤ cap` regardless of
the trades accepted earlier in the step. -/
theorem same_step_admission_behavior :
    (∀ (sigs₁ sigs₂ : List (String × Signal)) (dayData : List (String × Bar))
        (positions : List (String × ℤ)) (cap : ℚ),
      executeTrades (sigs₁ ++ sigs₂) dayData positions cap =
        ⟨(executeTrades sigs₁ dayData positions cap).trades ++
            (executeTrades sigs₂ dayData
              (executeTrades sigs₁ dayData positions cap).positions cap).trades,
          (executeTrades sigs₂ dayData
            (executeTrades sigs₁ dayData positions cap).positions cap).positions⟩) ∧
    (∀ (sigs : List (String × Signal)) (dayData : List (String × Bar))
        (positions : List (String × ℤ)) (cap : ℚ) (t : Trade),
      t ∈ (executeTrades sigs dayData positions cap).trades →
      t.trade_type = TradeType.BUY →
      t.price * (t.quantity : ℚ) + t.commission ≤ cap) := by
  constructor
  · intro sigs₁ sigs₂ dayData positions cap
    unfold executeTrades
    rw [List.foldl_append,
      foldl_tradeStep_split dayData cap sigs₂ (sigs₁.foldl (tradeStep dayData cap) ⟨[], positions⟩)]
  · intro sigs dayData positions cap
    unfold executeTrades
    induction sigs generalizing positions with
    | nil => intro t ht _; simp at ht
    | cons s rest ih =>
        intro t ht hbuy
        rw [List.foldl_cons,
          foldl_tradeStep_split dayData cap rest (tradeStep dayData cap ⟨[], positions⟩ s)] at ht
        simp only [List.mem_append] at ht
        rcases ht with hstep | hrest
        · exact tradeStep_buy_bound dayData cap ⟨[], positions⟩ s (by simp) t hstep hbuy
        · exact ih (tradeStep dayData cap ⟨[], positions⟩ s).positions t hrest hbuy

/-- Witness for `same_step_admission_behavior`: the single BUY admitted from
a one-signal step with capital 1001 costs at most 1001. -/
theorem same_step_admission_behavior_witness :
    (⟨"A", TradeType.BUY, 10, 100, 1⟩ : Trade).price *
        (((⟨"A", TradeType.BUY, 10, 100, 1⟩ : Trade).quantity : ℤ) : ℚ) +
      (⟨"A", TradeType.BUY, 10, 100, 1⟩ : Trade).commission ≤ 1001 :=
  same_step_admission_behavior.2 [("A", ⟨"BUY", 10⟩)] [("A", ⟨100⟩)] [] 1001
    ⟨"A", TradeType.BUY, 10, 100, 1⟩
    (by norm_num [executeTrades, tradeStep, lookupK, getKD, setK])
    rfl

/-- C2 (counterexample to the claim as stated): with step capital 1001, two
BUY signals each costing 1001 are both accepted — the second is not rejected
although the first exhausted the cash — and the capital after the step is
negative. -/
theorem same_step_capital_counterexample :
    (executeTrades [("A", ⟨"BUY", 10⟩), ("B", ⟨"BUY", 10⟩)]
        [("A", ⟨100⟩), ("B", ⟨100⟩)] [] 1001).trades.length = 2 ∧
    capitalAfterTrades 1001
      (executeTrades [("A", ⟨"BUY", 10⟩), ("B", ⟨"BUY", 10⟩)]
        [("A", ⟨100⟩), ("B", ⟨100⟩)] [] 1001).trades < 0 := by
  norm_num [executeTrades, tradeStep, lookupK, getKD, setK, capitalAfterTrades]

/-- C1 (counterexample to the claim as stated): through
`IntegratedBacktestExecutor._execute_trades`, a SELL for 10 while only 5 are
held is not rejected: a SELL trade for the 5 available shares is appended and
the position drops to 0. -/
theorem sell_overfill_counterexample :
    (executeTrades [("A", ⟨"SELL", 10⟩)] [("A", ⟨100⟩)] [("A", 5)] 0).trades =
      [⟨"A", TradeType.SELL, 5, 100, 1/2⟩] ∧
    getKD (executeTrades [("A", ⟨"SELL", 10⟩)] [("A", ⟨100⟩)] [("A", 5)] 0).positions
      "A" 0 = 0 := by
  norm_num [executeTrades, tradeStep, lookupK, getKD, setK]
  simp

/-- C1 (corrected claim): the two ledgers disagree on an oversized SELL.
In `TradingSimulator.simulate_trades`, a SELL whose (defaulted) quantity
exceeds the held position is rejected in full: cash, positions and trades are
unchanged by that signal.  In `IntegratedBacktestExecutor._execute_trades`, a
SELL for more than a positive held quantity is partially filled: a SELL trade
for exactly the held quantity is appended and the position drops to 0; the
signal is dropped entirely only when the held quantity is not positive. -/
theorem sell_beyond_holdings_behavior :
    (∀ (cfg : BacktestConfig) (noise : ℕ → ℚ) (st : TSState) (i : ℕ) (s : SimSignal),
      s.action.getD "BUY" = "SELL" →
      getKD st.positions (tsSymbol cfg s) 0 < ((s.quantity.getD 10 : ℤ) : ℚ) →
      (tsStep cfg noise st (i, s)).cash = st.cash ∧
      (tsStep cfg noise st (i, s)).positions = st.positions ∧
      (tsStep cfg noise st (i, s)).trades = st.trades) ∧
    (∀ (dayData : List (String × Bar)) (cap : ℚ) (st : ExecState)
        (sym : String) (sig : Signal) (bar : Bar),
      lookupK dayData sym = some bar → 0 < bar.close → sig.action = "SELL" →
      0 < getKD st.positions sym 0 → getKD st.positions sym 0 < sig.quantity →
      tradeStep dayData cap st (sym, sig) =
        ⟨st.trades ++ [⟨sym, TradeType.SELL, getKD st.positions sym 0, bar.close,
            bar.close * ((getKD st.positions sym 0 : ℤ) : ℚ) * (1 / 1000)⟩],
          setK st.positions sym 0⟩) ∧
    (∀ (dayData : List (String × Bar)) (cap : ℚ) (st : ExecState)
        (sym : String) (sig : Signal),
      sig.action = "SELL" → getKD st.positions sym 0 ≤ 0 →
      tradeStep dayData cap st (sym, sig) = st) := by
  refine ⟨?_, ?_, ?_⟩
  · intro cfg noise st i s hact hlt
    unfold tsStep
    dsimp only
    rw [hact]
    cases hl : lookupK st.priceData (tsSymbol cfg s) with
    | none => exact ⟨rfl, rfl, rfl⟩
    | some oldPrice =>
        refine ⟨?_, ?_, ?_⟩ <;> simp [not_le.mpr hlt]
  · intro dayData cap st sym sig bar hl hpos hact hheld hlt
    unfold tradeStep
    dsimp only
    rw [hl, hact]
    simp [not_le.mpr hpos, lt_trans hheld hlt, min_eq_right (le_of_lt hlt), hheld,
      sub_self]
  · intro dayData cap st sym sig hact hle
    unfold tradeStep
    dsimp only
    rw [hact]
    cases hl : lookupK dayData sym with
    | none => rfl
    | some bar =>
        by_cases hpos : bar.close ≤ 0
        · simp [hpos]
        · by_cases hq : sig.quantity > 0
          · simp [hpos, hq, not_lt.mpr ((min_le_right sig.quantity _).trans hle)]
          · simp [hpos, hq]

/-- Witness for `sell_beyond_holdings_behavior`: concrete instances of all
three branches (an oversized SELL leaves the simulator trade list unchanged;
a SELL of 5 against 3 held through the integrated ledger fills 3 and zeroes
the position; a SELL with nothing held is a no-op). -/
theorem sell_beyond_holdings_behavior_witness :
    ((tsStep ⟨["AAPL"], 100, 0⟩ (fun _ => 0)
        ⟨100, [("AAPL", 2)], [("AAPL", 100)], [100], []⟩
        (0, ⟨none, some "SELL", some 5⟩)).trades = []) ∧
    (tradeStep [("A", ⟨100⟩)] 0 ⟨[], [("A", 3)]⟩ ("A", ⟨"SELL", 5⟩) =
      ⟨[⟨"A", TradeType.SELL, getKD [("A", (3 : ℤ))] "A" 0, 100,
          100 * ((getKD [("A", (3 : ℤ))] "A" 0 : ℤ) : ℚ) * (1 / 1000)⟩],
        setK [("A", 3)] "A" 0⟩) ∧
    (tradeStep [("A", ⟨100⟩)] 0 ⟨[], []⟩ ("A", ⟨"SELL", 5⟩) = ⟨[], []⟩) := by
  refine ⟨?_, ?_, ?_⟩
  · exact (sell_beyond_holdings_behavior.1 ⟨["AAPL"], 100, 0⟩ (fun _ => 0)
      ⟨100, [("AAPL", 2)], [("AAPL", 100)], [100], []⟩ 0 ⟨none, some "SELL", some 5⟩
      rfl (by norm_num [getKD, lookupK, tsSymbol])).2.2
  · have h := sell_beyond_holdings_behavior.2.1 [("A", ⟨100⟩)] 0 ⟨[], [("A", 3)]⟩
      "A" ⟨"SELL", 5⟩ ⟨100⟩ rfl (by norm_num) rfl
      (by norm_num [getKD, lookupK]) (by norm_num [getKD, lookupK])
    simpa using h
  · exact sell_beyond_holdings_behavior.2.2 [("A", ⟨100⟩)] 0 ⟨[], []⟩ "A" ⟨"SELL", 5⟩
      rfl (by norm_num [getKD, lookupK])

/-- C3: `TradingSimulator.simulate_trades` draws a fresh
`np.random.normal(0, 0.02)` sample per signal with no fixed seed; with the
same configuration and signal list, two executions whose draws differ produce
trades with different prices. -/
theorem simulateTrades_noise_sensitivity :
    (simulateTrades ⟨["AAPL"], 100000, 1/1000⟩ [⟨none, some "BUY", some 10⟩]
      (fun _ => 0)).2.map Trade.price ≠
    (simulateTrades ⟨["AAPL"], 100000, 1/1000⟩ [⟨none, some "BUY", some 10⟩]
      (fun _ => 1/100)).2.map Trade.price := by
  norm_num [simulateTrades, tsStep, tsSymbol, lookupK, getKD, setK, List.enum,
    List.enumFrom]

/-- C4: FIFO win/loss attribution on BUY 10 @ 100, BUY 10 @ 120,
SELL 15 @ 130: win rate 1, two winning matches, no losing match, and the
partially consumed second lot is left with 5 shares at its original price
120 (the trade list after the call shows the in-place quantity mutation). -/
theorem fifo_attribution_example :
    calculateTradeMetrics
      [⟨"A", TradeType.BUY, 10, 100, 0⟩, ⟨"A", TradeType.BUY, 10, 120, 0⟩,
       ⟨"A", TradeType.SELL, 15, 130, 0⟩] =
    (1, 2, 0,
      [⟨"A", TradeType.BUY, 10, 100, 0⟩, ⟨"A", TradeType.BUY, 5, 120, 0⟩,
       ⟨"A", TradeType.SELL, 15, 130, 0⟩]) := by
  norm_num [calculateTradeMetrics, tradeMetricsGo, consumeLots, lookupK, getKD, setK,
    List.enum, List.enumFrom]

/-- C5 (corrected claim): with initial cash 100000, closes [100, 105, 95],
BUY 10 on day 0 and the hard-coded 0.001 commission, the single BUY costs
10·100 + 1 = 1001, so day-0 cash is 98999 (not 98990), the value series is
[100000, 99990 + 9, 100040 + 9, 99940 + 9] and the total return is
(99949 − 100000)/100000 = −51/100000 = −0.00051. -/
theorem end_to_end_example :
    executeSimulation
      (fun i _ => some (if i = 0 then [("AAPL", ⟨"BUY", 10⟩)] else []))
      [("AAPL", [⟨100⟩, ⟨105⟩, ⟨95⟩])] 100000 ["AAPL"] =
    some ([⟨"AAPL", TradeType.BUY, 10, 100, 1⟩],
          [100000, 99999, 100049, 99949]) ∧
    totalReturnQ [100000, 99999, 100049, 99949] 100000 = -51/100000 := by
  constructor
  · norm_num [executeSimulation, minLengthOf, simDay, buildDayData, executeTrades,
      tradeStep, capitalAfterTrades, calculatePortfolioValue, lookupK, getKD, setK,
      List.range_succ]
  · norm_num [totalReturnQ]

/-- C5 (counterexample to the claim as stated): the simulation does not
produce the portfolio values 99990/100040/99940 claimed for this scenario
(its day-0 cash is 98999 = 100000 − 1001, not 98990). -/
theorem end_to_end_counterexample :
    (executeSimulation
      (fun i _ => some (if i = 0 then [("AAPL", ⟨"BUY", 10⟩)] else []))
      [("AAPL", [⟨100⟩, ⟨105⟩, ⟨95⟩])] 100000 ["AAPL"]).map Prod.snd ≠
    some [100000, 99990, 100040, 99940] := by
  norm_num [executeSimulation, minLengthOf, simDay, buildDayData, executeTrades,
    tradeStep, capitalAfterTrades, calculatePortfolioValue, lookupK, getKD, setK,
    List.range_succ]

/-- C8: on the series [100, 0, 50] the daily-return loop of
`PerformanceCalculator.calculate_metrics` divides by the zero previous value
and raises (`none`), while the guarded loop of
`IntegratedBacktestExecutor._calculate_performance_metrics` skips that point
and yields the single return −1. -/
theorem pc_division_fault :
    pcCalculateMetrics [100, 0, 50] 100 = none ∧
    dailyReturnsIBE [100, 0, 50] = [-1] := by
  constructor
  · norm_num [pcCalculateMetrics, pcDailyReturns]
  · norm_num [dailyReturnsIBE]

/-- C10: when every bar list is empty (or the market-data dict is empty),
`min(len(data) for data in market_data.values() if data)` on line 188 is a
`min` over an empty sequence and raises `ValueError`; the simulation does not
return the initial-capital point, it fails for any strategy, capital and
symbol list. -/
theorem empty_bars_min_fault :
    ∀ (strategy : ℕ → List (String × Bar) → Option (List (String × Signal)))
      (initialCapital : ℚ) (symbols : List String),
      executeSimulation strategy [("AAPL", ([] : List Bar))] initialCapital symbols
          = none ∧
      executeSimulation strategy [] initialCapital symbols = none :=
  fun _ _ _ => ⟨rfl, rfl⟩

/-- C6 (corrected claim): on an unhandled failure both orchestrators mark the
run FAILED, record its end time, and persist a FAILED execution record
carrying the error; but the integrated executor leaves `duration_seconds` of
the run untouched (it records no duration on failure), and the backtest
service leaves `error_message` of the run untouched (the error is persisted
only on the execution record). -/
theorem failure_path_behavior :
    ∀ (b : Backtest) (e : BacktestExecution) (err : String) (startTime now : ℕ),
      integratedFailureRun b err now =
        ⟨BacktestStatus.FAILED, b.start_time, some now, b.duration_seconds, some err⟩ ∧
      integratedFailureExecution e err now =
        ⟨BacktestStatus.FAILED, e.start_time, some now, some err⟩ ∧
      serviceFailureRun b startTime now =
        ⟨BacktestStatus.FAILED, b.start_time, some now, some (now - startTime),
          b.error_message⟩ ∧
      serviceFailureExecution startTime now err =
        ⟨BacktestStatus.FAILED, some startTime, some now, some err⟩ :=
  fun _ _ _ _ _ => ⟨rfl, rfl, rfl, rfl⟩

/-- C6 (counterexample to the claim as stated): after the integrated failure
handler the run still has no duration, and after the backtest-service failure
handler the run still has no error message. -/
theorem failure_path_counterexample :
    (integratedFailureRun ⟨BacktestStatus.RUNNING, some 0, none, none, none⟩
      "boom" 5).duration_seconds = none ∧
    (serviceFailureRun ⟨BacktestStatus.RUNNING, some 0, none, none, none⟩
      0 5).error_message = none :=
  ⟨rfl, rfl⟩

/-
Length preservation through the FIFO attribution, needed to compare repeated
calls of the metrics computation.
-/

theorem consumeLots_qtys_length (tr : List Trade) (sellPrice : ℚ) :
    ∀ (lots : List ℕ) (rem : ℤ) (qtys : List ℤ) (w t : ℕ),
      (consumeLots tr sellPrice lots rem qtys w t).2.1.length = qtys.length := by
  intro lots
  induction lots with
  | nil => intro rem qtys w t; rfl
  | cons j rest ih =>
      intro rem qtys w t
      unfold consumeLots
      by_cases h1 : rem ≤ 0
      · simp [h1]
      · rw [if_neg h1]
        dsimp only
        by_cases h2 : qtys.getD j 0 ≤ rem
        · rw [if_pos h2]; exact ih _ _ _ _
        · rw [if_neg h2]; simp

theorem tradeMetricsGo_qtys_length (tr : List Trade) :
    ∀ (l : List (ℕ × Trade)) (st : TMState),
      (tradeMetricsGo tr l st).qtys.length = st.qtys.length := by
  intro l
  induction l with
  | nil => intro st; rfl
  | cons p rest ih =>
      intro st
      unfold tradeMetricsGo
      cases p.2.trade_type with
      | BUY => simp [ih]
      | SELL =>
          cases lookupK st.lots p.2.symbol with
          | none => simp [ih]
          | some lotIdxs => simp [ih, consumeLots_qtys_length]

theorem calculateTradeMetrics_length (trades : List Trade) :
    (calculateTradeMetrics trades).2.2.2.length = trades.length := by
  unfold calculateTradeMetrics
  split_ifs with h
  · rfl
  · simp [tradeMetricsGo_qtys_length]

/-- C7 (corrected claim): the metrics computation is a deterministic function
of its inputs, and a second call — on the trade list as the first call left
it — returns the same total return, annualized return, volatility, Sharpe
ratio, max drawdown and total trade count; but the winning/losing counts and
win rate of the second call may differ, because the first call mutated the
quantities of partially consumed BUY trades in the input list. -/
theorem metrics_repeat_call_behavior :
    ∀ (values : List ℚ) (init : ℚ) (trades : List Trade),
      ((calculatePerformanceMetrics values init
          (calculatePerformanceMetrics values init trades).2).1.total_return =
        (calculatePerformanceMetrics values init trades).1.total_return) ∧
      ((calculatePerformanceMetrics values init
          (calculatePerformanceMetrics values init trades).2).1.annualized_return =
        (calculatePerformanceMetrics values init trades).1.annualized_return) ∧
      ((calculatePerformanceMetrics values init
          (calculatePerformanceMetrics values init trades).2).1.volatility =
        (calculatePerformanceMetrics values init trades).1.volatility) ∧
      ((calculatePerformanceMetrics values init
          (calculatePerformanceMetrics values init trades).2).1.sharpe =
        (calculatePerformanceMetrics values init trades).1.sharpe) ∧
      ((calculatePerformanceMetrics values init
          (calculatePerformanceMetrics values init trades).2).1.max_drawdown =
        (calculatePerformanceMetrics values init trades).1.max_drawdown) ∧
      ((calculatePerformanceMetrics values init
          (calculatePerformanceMetrics values init trades).2).1.total_trades =
        (calculatePerformanceMetrics values init trades).1.total_trades) := by
  intro values init trades
  by_cases h : values.length < 2
  · simp [calculatePerformanceMetrics, h]
  · simp [calculatePerformanceMetrics, h, calculateTradeMetrics_length]

/-- C7 (counterexample to the claim as stated): on BUY 10 @ 100 followed by
two SELL 4 @ 110, the first metrics call leaves the BUY trade with quantity
2 in the input list (mutation), and a second call in succession counts 1
winning trade where the first counted 2. -/
theorem metrics_mutation_counterexample :
    ((calculatePerformanceMetrics [100, 110] 100
        [⟨"A", TradeType.BUY, 10, 100, 0⟩, ⟨"A", TradeType.SELL, 4, 110, 0⟩,
         ⟨"A", TradeType.SELL, 4, 110, 0⟩]).2 ≠
      [⟨"A", TradeType.BUY, 10, 100, 0⟩, ⟨"A", TradeType.SELL, 4, 110, 0⟩,
       ⟨"A", TradeType.SELL, 4, 110, 0⟩]) ∧
    ((calculatePerformanceMetrics [100, 110] 100
        (calculatePerformanceMetrics [100, 110] 100
          [⟨"A", TradeType.BUY, 10, 100, 0⟩, ⟨"A", TradeType.SELL, 4, 110, 0⟩,
           ⟨"A", TradeType.SELL, 4, 110, 0⟩]).2).1.winning_trades ≠
      (calculatePerformanceMetrics [100, 110] 100
        [⟨"A", TradeType.BUY, 10, 100, 0⟩, ⟨"A", TradeType.SELL, 4, 110, 0⟩,
         ⟨"A", TradeType.SELL, 4, 110, 0⟩]).1.winning_trades) := by
  constructor
  · norm_num [calculatePerformanceMetrics, calculateTradeMetrics, tradeMetricsGo,
      consumeLots, lookupK, getKD, setK, List.enum, List.enumFrom]
  · norm_num [calculatePerformanceMetrics, calculateTradeMetrics, tradeMetricsGo,
      consumeLots, lookupK, getKD, setK, List.enum, List.enumFrom]

/-- C9 (corrected claim): the annualized return uses
`days = len(portfolio_values)` — the number of value points of the series,
not the number of daily intervals (one less): for a series with at least two
points the result is `(1 + total_return) ^ (365 / length) − 1`. -/
theorem annualized_points_count :
    ∀ (values : List ℚ) (init : ℚ) (trades : List Trade),
      2 ≤ values.length →
      (calculatePerformanceMetrics values init trades).1.annualized_return =
        (1 + (totalReturnQ values init : ℝ)) ^ ((365 : ℝ) / (values.length : ℝ)) - 1 := by
  intro values init trades h
  simp only [calculatePerformanceMetrics, annualizedReturnOf]
  rw [if_neg (show ¬ values.length < 2 by omega)]
  dsimp only
  rw [if_pos (show 0 < values.length by omega)]

/-- Witness for `annualized_points_count` at the two-point series
[100, 400]. -/
theorem annualized_points_count_witness :
    (2 ≤ ([100, 400] : List ℚ).length) ∧
    (calculatePerformanceMetrics [100, 400] 100 []).1.annualized_return =
      (1 + (totalReturnQ [100, 400] 100 : ℝ)) ^
        ((365 : ℝ) / (([100, 400] : List ℚ).length : ℝ)) - 1 :=
  ⟨by norm_num, annualized_points_count [100, 400] 100 [] (by norm_num)⟩

/-- C9 (counterexample to the claim as stated): on the series [100, 400] with
initial value 100 (total return 3), the code computes
`(1 + 3) ^ (365/2) − 1` with 2 the number of value points; this differs from
the claimed `(1 + 3) ^ (365/1) − 1` built from the interval count 1. -/
theorem annualized_exponent_counterexample :
    (calculatePerformanceMetrics [100, 400] 100 []).1.annualized_return ≠
      (1 + ((3 : ℚ) : ℝ)) ^ ((365 : ℝ) / (1 : ℝ)) - 1 := by
  have h1 : (calculatePerformanceMetrics [100, 400] 100 ([] : List Trade)).1.annualized_return =
      (4 : ℝ) ^ ((365 : ℝ) / 2) - 1 := by
    simp only [calculatePerformanceMetrics, annualizedReturnOf]
    rw [if_neg (by norm_num)]
    dsimp only
    rw [if_pos (by norm_num)]
    norm_num [totalReturnQ]
  have h2 : (4 : ℝ) ^ ((365 : ℝ) / 2) < (4 : ℝ) ^ ((365 : ℝ) / 1) := by
    rw [Real.rpow_lt_rpow_left_iff (show (1 : ℝ) < 4 by norm_num)]
    norm_num
  have h3 : (1 + ((3 : ℚ) : ℝ)) = (4 : ℝ) := by push_cast; norm_num
  rw [h1, h3]
  exact ne_of_lt (sub_lt_sub_right h2 1)
